import Mathlib

/-!
# Verification of the vision-insight-api worker orchestrator

Shallow embedding of the memory-admission policy, eviction logic, worker
supervision and gateway dispatch of the `vision-insight-api` repository
(`src/core/memory.py`, `src/worker_manager.py`, `src/gateway/main.py`,
`src/core/supervisor.py`), together with theorems settling the spec claims.

Memory quantities (GB) are modelled as rationals `ℚ`: every constant in the
source is an exact decimal, so `ℚ` represents them exactly.  Python strings
are Lean `String`s; Python dicts are association lists with unique keys.
-/

set_option maxHeartbeats 1000000

namespace VisionInsight

/-- `chPre n h` : the char list `n` is a prefix of `h` (Python `h.startswith(n)`). -/
def chPre : List Char → List Char → Bool
  | [], _ => true
  | _ :: _, [] => false
  | a :: as, b :: bs => a == b && chPre as bs

/-- `chSub n h` : the char list `n` occurs contiguously inside `h`. -/
def chSub (n : List Char) : List Char → Bool
  | [] => chPre n []
  | b :: bs => chPre n (b :: bs) || chSub n bs

/-- `strHas hay needle` models Python's `needle in hay` on strings. -/
def strHas (hay needle : String) : Bool :=
  chSub needle.data hay.data

/-- ASCII lowercase of one character, modelling Python's `str.lower` on the
ASCII range (the only range the source's paths and keys use). -/
def charLower (c : Char) : Char :=
  if 65 ≤ c.toNat ∧ c.toNat ≤ 90 then Char.ofNat (c.toNat + 32) else c

/-- `strLower s` models Python's `s.lower()`. -/
def strLower (s : String) : String :=
  ⟨s.data.map charLower⟩

/-- `MODEL_MEMORY_REQUIREMENTS` from `src/core/memory.py`, in source order:
estimated memory usage per model, in GB. -/
def MODEL_MEMORY_REQUIREMENTS : List (String × ℚ) :=
  [ ("mlx-community/moondream2", 1.5),
    ("mlx-community/Qwen2.5-VL-3B-Instruct-4bit", 2.5),
    ("mlx-community/Qwen2.5-VL-7B-Instruct-4bit", 4.5),
    ("mlx-community/Qwen2.5-VL-14B-Instruct-4bit", 8.0),
    ("mlx-community/FLUX.1-schnell-4bit-mlx", 6.0),
    ("mlx-community/FLUX.1-dev-4bit-mlx", 12.0),
    ("Qwen/Qwen-Image-2512", 20.0),
    ("_default_vlm", 3.0),
    ("_default_diffusion", 8.0),
    ("_default_cuda_diffusion", 20.0) ]

/-- `get_model_memory_requirement` from `src/core/memory.py`: exact table
match, then substring inference on the lowercased path, then a fallback read
from the table keyed only on whether the type is `"diffusion"`.  The `getD 0`
models Python's `d[k]` at keys that are literally present in the table. -/
def get_model_memory_requirement (model_path : String) (model_type : String) : ℚ :=
  match MODEL_MEMORY_REQUIREMENTS.lookup model_path with
  | some v => v
  | none =>
    if strHas (strLower model_path) "14b" then 8.0
    else if strHas (strLower model_path) "7b" then 4.5
    else if strHas (strLower model_path) "3b" then 2.5
    else if strHas (strLower model_path) "2b" || strHas (strLower model_path) "1b" then 1.5
    else if model_type = "diffusion" then
      (MODEL_MEMORY_REQUIREMENTS.lookup "_default_diffusion").getD 0
    else
      (MODEL_MEMORY_REQUIREMENTS.lookup "_default_vlm").getD 0

/-- The estimator exactly as the spec words it (§4.2): table, then substring
rules, then literal defaults 8.0 for diffusion and 3.0 for vlm. -/
def specModelMemory (model_path : String) (model_type : String) : ℚ :=
  match MODEL_MEMORY_REQUIREMENTS.lookup model_path with
  | some v => v
  | none =>
    if strHas (strLower model_path) "14b" then 8.0
    else if strHas (strLower model_path) "7b" then 4.5
    else if strHas (strLower model_path) "3b" then 2.5
    else if strHas (strLower model_path) "2b" || strHas (strLower model_path) "1b" then 1.5
    else if model_type = "diffusion" then 8.0
    else 3.0

/-- C5: for every model path and for the two model types the spec names, the
estimated footprint is computed by the three staged rules: exact table value,
else the size-substring rules on the lowercased path, else 8.0 GB for
diffusion and 3.0 GB for vlm. -/
theorem c5_memory_requirement_staged (model_path model_type : String)
    (h : model_type = "vlm" ∨ model_type = "diffusion") :
    get_model_memory_requirement model_path model_type =
      specModelMemory model_path model_type := by
  unfold get_model_memory_requirement specModelMemory
  cases hl : MODEL_MEMORY_REQUIREMENTS.lookup model_path with
  | some v => rfl
  | none => split_ifs <;> rfl

/-- Witness for C5 at a concrete path and type. -/
theorem c5_memory_requirement_staged_witness :
    get_model_memory_requirement "mlx-community/Qwen2.5-VL-7B-Instruct-4bit" "vlm" =
      specModelMemory "mlx-community/Qwen2.5-VL-7B-Instruct-4bit" "vlm" :=
  c5_memory_requirement_staged _ _ (Or.inl rfl)

/-- C10: a path with no table entry and no size substring gets the VLM default
3.0 GB for every type other than `"diffusion"` — including `"cuda_diffusion"`,
whose dedicated table entry `_default_cuda_diffusion` (20 GB) is present but
never consulted: the estimator treats `"cuda_diffusion"` exactly like
`"vlm"`. -/
theorem c10_cuda_diffusion_gets_vlm_default :
    (∀ model_path model_type, model_type ≠ "diffusion" →
      MODEL_MEMORY_REQUIREMENTS.lookup model_path = none →
      strHas (strLower model_path) "14b" = false →
      strHas (strLower model_path) "7b" = false →
      strHas (strLower model_path) "3b" = false →
      strHas (strLower model_path) "2b" = false →
      strHas (strLower model_path) "1b" = false →
      get_model_memory_requirement model_path model_type = 3.0) ∧
    MODEL_MEMORY_REQUIREMENTS.lookup "_default_cuda_diffusion" = some 20.0 ∧
    (∀ model_path,
      get_model_memory_requirement model_path "cuda_diffusion" =
        get_model_memory_requirement model_path "vlm") := by
  refine ⟨?_, rfl, ?_⟩
  · intro p t ht hl h14 h7 h3 h2 h1
    unfold get_model_memory_requirement
    rw [hl]
    simp [h14, h7, h3, h2, h1, ht]
    rfl
  · intro p
    unfold get_model_memory_requirement
    rw [if_neg (show ¬ ("cuda_diffusion" = "diffusion") from by decide),
        if_neg (show ¬ ("vlm" = "diffusion") from by decide)]

/-- Witness for C10 at the concrete path `"mymodel"` and type
`"cuda_diffusion"`. -/
theorem c10_cuda_diffusion_gets_vlm_default_witness :
    get_model_memory_requirement "mymodel" "cuda_diffusion" = 3.0 :=
  c10_cuda_diffusion_gets_vlm_default.1 "mymodel" "cuda_diffusion"
    (by decide) (by decide) (by decide) (by decide) (by decide) (by decide) (by decide)

/-! ## Eviction logic

`calculate_eviction_needed` (`src/core/memory.py`) and
`WorkerManager._evict_for_memory` (`src/worker_manager.py`).  The impure
`get_memory_status()` calls are modelled by passing the probed
`available` reading (respectively a probe oracle `Nat → ℚ`, indexed by call
order) as an argument. -/

/-- One record of `WorkerManager.workers` (`WorkerProcess` in
`src/worker_manager.py`).  `exited` models `process.poll() is not None`;
times are seconds as rationals. -/
structure WorkerProcess where
  «alias» : String
  port : Nat
  model_path : String
  model_type : String
  memory_gb : ℚ
  started_at : ℚ
  last_used : ℚ
  request_count : Nat
  exited : Bool
deriving DecidableEq

/-- Stable insertion (descending by `key`): `x` goes in front of the first
element whose key is `≤ key x`, so earlier elements win ties. -/
def insertDesc (key : α → ℚ) (x : α) : List α → List α
  | [] => [x]
  | y :: ys => if key y ≤ key x then x :: y :: ys else y :: insertDesc key x ys

/-- Stable descending sort by `key`: extensionally the list Python's
`sorted(l, key=key, reverse=True)` returns (stable, descending). -/
def sortDesc (key : α → ℚ) : List α → List α
  | [] => []
  | x :: xs => insertDesc key x (sortDesc key xs)

/-- Stable insertion (ascending by `key`): `x` goes in front of the first
element whose key is `≥ key x`, so earlier elements win ties. -/
def insertAsc (key : α → ℚ) (x : α) : List α → List α
  | [] => [x]
  | y :: ys => if key x ≤ key y then x :: y :: ys else y :: insertAsc key x ys

/-- Stable ascending sort by `key`: extensionally the list Python's
`sorted(l, key=key)` returns. -/
def sortAsc (key : α → ℚ) : List α → List α
  | [] => []
  | x :: xs => insertAsc key x (sortAsc key xs)

/-- The accumulation loop of `calculate_eviction_needed`: append the alias,
add its memory, break once `freed ≥ to_free`. -/
def evictWalk (to_free : ℚ) : List (String × ℚ) → ℚ → List String
  | [], _ => []
  | (a, m) :: rest, freed =>
    a :: (if to_free ≤ freed + m then [] else evictWalk to_free rest (freed + m))

/-- `calculate_eviction_needed` from `src/core/memory.py`.  `available_gb` is
the `memory.available` reading of the single `get_memory_status()` call. -/
def calculate_eviction_needed (model_path model_type : String) (available_gb : ℚ)
    (loaded_models : List (String × ℚ)) (safety_margin_gb : ℚ) : List String :=
  let required_gb := get_model_memory_requirement model_path model_type
  let effective_available := available_gb - safety_margin_gb
  if required_gb ≤ effective_available then []
  else
    evictWalk (required_gb - effective_available)
      (sortDesc Prod.snd loaded_models) 0

/-- The loop body of `_evict_for_memory`: break once `freed ≥ to_free`
(checked at the top of each iteration), else stop the worker and add its
static `memory_gb` estimate to `freed`. -/
def evictLoop (to_free : ℚ) : List (String × WorkerProcess) → ℚ → List String
  | [], _ => []
  | (a, w) :: rest, freed =>
    if to_free ≤ freed then []
    else a :: evictLoop to_free rest (freed + w.memory_gb)

/-- `WorkerManager._evict_for_memory` from `src/worker_manager.py`, returning
the aliases it stops, in order.  `probe i` is the `memory.available` reading
of the `i`-th `get_memory_status()` call the body would make; the source
calls it exactly once, at entry. -/
def evictForMemory (needed_gb safety_margin_gb : ℚ) (probe : Nat → ℚ)
    (workers : List (String × WorkerProcess)) : List String :=
  let to_free := needed_gb - (probe 0 - safety_margin_gb)
  if to_free ≤ 0 then []
  else evictLoop to_free (sortAsc (fun x => x.2.last_used) workers) 0

/-- The eviction set exactly as claim C1 words it: residents sorted by
descending `memory_gb`, ties broken by oldest `last_used`, and the shortest
prefix of that order whose summed `memory_gb` reaches the deficit. -/
def claimLargestFirstEvict (deficit : ℚ) (workers : List (String × WorkerProcess)) : List String :=
  let sorted :=
    sortDesc (fun x => x.2.memory_gb) (sortAsc (fun x => x.2.last_used) workers)
  evictLoop deficit sorted 0

/-- Modelled from the spec: the eviction loop as §4.3/§4.4 describe it,
re-probing host memory after every stop (`probe (i+1)` is the fresh reading
after the `i`-th stop) and terminating as soon as the freshly probed
availability satisfies the deficit.  The walk order is kept as the source has
it (ascending `last_used`), so this differs from `evictForMemory` only in the
re-probing. -/
def reprobeLoop (needed_gb safety_margin_gb : ℚ) (probe : Nat → ℚ) :
    List (String × WorkerProcess) → Nat → List String
  | [], _ => []
  | (a, _) :: rest, i =>
    if needed_gb ≤ probe i - safety_margin_gb then []
    else a :: reprobeLoop needed_gb safety_margin_gb probe rest (i + 1)

/-- Modelled from the spec: `_evict_for_memory` as the spec describes it,
with a fresh probe after each stop (see `reprobeLoop`). -/
def evictForMemoryReprobe (needed_gb safety_margin_gb : ℚ) (probe : Nat → ℚ)
    (workers : List (String × WorkerProcess)) : List String :=
  reprobeLoop needed_gb safety_margin_gb probe
    (sortAsc (fun x => x.2.last_used) workers) 0

/-- `evictWalk` returns the aliases of the shortest list-order prefix whose
summed memory reaches the deficit (the whole list when none does). -/
theorem evictWalk_shortest (to_free : ℚ) (l : List (String × ℚ)) :
    ∀ freed : ℚ, freed < to_free →
    ∃ k, k ≤ l.length ∧
      evictWalk to_free l freed = (l.take k).map Prod.fst ∧
      (to_free ≤ freed + ((l.take k).map Prod.snd).sum ∨ k = l.length) ∧
      ∀ j < k, freed + ((l.take j).map Prod.snd).sum < to_free := by
  induction l with
  | nil =>
    intro freed _
    exact ⟨0, Nat.le_refl 0, rfl, Or.inr rfl, fun j hj => absurd hj (Nat.not_lt_zero j)⟩
  | cons hd rest ih =>
    obtain ⟨a, m⟩ := hd
    intro freed hf
    by_cases hc : to_free ≤ freed + m
    · refine ⟨1, by simp, by simp [evictWalk, hc], Or.inl (by simpa using hc), ?_⟩
      intro j hj
      interval_cases j
      simpa using hf
    · push_neg at hc
      obtain ⟨k, hkle, heq, hreach, hmin⟩ := ih (freed + m) hc
      refine ⟨k + 1, by simpa using hkle, ?_, ?_, ?_⟩
      · simp [evictWalk, not_le.mpr hc, heq]
      · rcases hreach with h | h
        · exact Or.inl (by simpa [add_assoc] using h)
        · exact Or.inr (by simp [h])
      · intro j hj
        match j with
        | 0 => simpa using hf
        | j' + 1 =>
          have := hmin j' (by omega)
          simpa [add_assoc] using this


/-- `evictLoop` stops the aliases of the shortest list-order prefix whose
summed static `memory_gb` reaches the deficit (the whole list when none
does). -/
theorem evictLoop_shortest (to_free : ℚ) (l : List (String × WorkerProcess)) :
    ∀ freed : ℚ,
    ∃ k, k ≤ l.length ∧
      evictLoop to_free l freed = (l.take k).map Prod.fst ∧
      (to_free ≤ freed + ((l.take k).map (fun x => x.2.memory_gb)).sum ∨ k = l.length) ∧
      ∀ j < k, freed + ((l.take j).map (fun x => x.2.memory_gb)).sum < to_free := by
  induction l with
  | nil =>
    intro freed
    exact ⟨0, Nat.le_refl 0, rfl, Or.inr rfl, fun j hj => absurd hj (Nat.not_lt_zero j)⟩
  | cons hd rest ih =>
    obtain ⟨a, w⟩ := hd
    intro freed
    by_cases hc : to_free ≤ freed
    · exact ⟨0, Nat.zero_le _, by simp [evictLoop, hc], Or.inl (by simpa using hc),
        fun j hj => absurd hj (Nat.not_lt_zero j)⟩
    · push_neg at hc
      obtain ⟨k, hkle, heq, hreach, hmin⟩ := ih (freed + w.memory_gb)
      refine ⟨k + 1, by simpa using hkle, ?_, ?_, ?_⟩
      · simp [evictLoop, not_le.mpr hc, heq]
      · rcases hreach with h | h
        · exact Or.inl (by simpa [add_assoc] using h)
        · exact Or.inr (by simp [h])
      · intro j hj
        match j with
        | 0 => simpa using hc
        | j' + 1 =>
          have := hmin j' (by omega)
          simpa [add_assoc] using this

/-- A small resident worker that is the least recently used. -/
def wSmall : WorkerProcess :=
  ⟨"small", 8001, "small-model", "vlm", 1, 0, 50, 0, false⟩

/-- A large resident worker that is the most recently used. -/
def wBig : WorkerProcess :=
  ⟨"big", 8002, "big-model", "vlm", 8, 0, 100, 0, false⟩

/-- C1 (counterexample): with residents `small` (1 GB, last used at 50) and
`big` (8 GB, last used at 100) and a deficit of 8 GB, the claimed
largest-first rule would evict exactly `big`, but `_evict_for_memory` (which
sorts by ascending `last_used`, not by descending `memory_gb`) stops `small`
first and then `big`. -/
theorem c1_counterexample_oldest_first :
    evictForMemory 10 4 (fun _ => 6) [("small", wSmall), ("big", wBig)] = ["small", "big"] ∧
    claimLargestFirstEvict (10 - (6 - 4)) [("small", wSmall), ("big", wBig)] = ["big"] ∧
    wSmall.memory_gb = 1 ∧ wBig.memory_gb = 8 ∧ wSmall.last_used < wBig.last_used := by
  refine ⟨?_, ?_, rfl, rfl, by norm_num [wSmall, wBig]⟩
  · norm_num [evictForMemory, evictLoop, sortAsc, insertAsc, wSmall, wBig]
  · norm_num [claimLargestFirstEvict, evictLoop, sortAsc, insertAsc, sortDesc,
      insertDesc, wSmall, wBig]

/-- C1 (amended): when the load does not fit, the pure decision function
`calculate_eviction_needed` does evict largest-first — it returns the
shortest prefix, in the stable descending-`memory_gb` order (ties keep map
order; `last_used` is not available to it), whose summed `memory_gb` reaches
the deficit, or all residents when none does.  The supervisor's loop
`_evict_for_memory`, however, evicts oldest-first: it stops the shortest
prefix of the residents sorted by ascending `last_used` whose summed static
`memory_gb` reaches the deficit, or all of them when none does. -/
theorem c1_amended_eviction_order :
    (∀ (model_path model_type : String) (available margin : ℚ)
        (loaded : List (String × ℚ)),
      available - margin < get_model_memory_requirement model_path model_type →
      ∃ k, k ≤ (sortDesc Prod.snd loaded).length ∧
        calculate_eviction_needed model_path model_type available loaded margin
          = ((sortDesc Prod.snd loaded).take k).map Prod.fst ∧
        (get_model_memory_requirement model_path model_type - (available - margin)
            ≤ (((sortDesc Prod.snd loaded).take k).map Prod.snd).sum
          ∨ k = (sortDesc Prod.snd loaded).length) ∧
        ∀ j < k,
          (((sortDesc Prod.snd loaded).take j).map Prod.snd).sum
            < get_model_memory_requirement model_path model_type - (available - margin)) ∧
    (∀ (needed margin : ℚ) (probe : Nat → ℚ)
        (workers : List (String × WorkerProcess)),
      0 < needed - (probe 0 - margin) →
      ∃ k, k ≤ (sortAsc (fun x => x.2.last_used) workers).length ∧
        evictForMemory needed margin probe workers
          = ((sortAsc (fun x => x.2.last_used) workers).take k).map Prod.fst ∧
        (needed - (probe 0 - margin)
            ≤ (((sortAsc (fun x => x.2.last_used) workers).take k).map
                (fun x => x.2.memory_gb)).sum
          ∨ k = (sortAsc (fun x => x.2.last_used) workers).length) ∧
        ∀ j < k,
          (((sortAsc (fun x => x.2.last_used) workers).take j).map
              (fun x => x.2.memory_gb)).sum
            < needed - (probe 0 - margin)) := by
  constructor
  · intro mp mt available margin loaded hlt
    have hpos : (0 : ℚ) < get_model_memory_requirement mp mt - (available - margin) := by
      linarith
    obtain ⟨k, hk, heq, hreach, hmin⟩ :=
      evictWalk_shortest (get_model_memory_requirement mp mt - (available - margin))
        (sortDesc Prod.snd loaded) 0 hpos
    refine ⟨k, hk, ?_, ?_, ?_⟩
    · simp only [calculate_eviction_needed]
      rw [if_neg (not_le.mpr hlt)]
      exact heq
    · simpa using hreach
    · intro j hj
      simpa using hmin j hj
  · intro needed margin probe ws hpos
    obtain ⟨k, hk, heq, hreach, hmin⟩ :=
      evictLoop_shortest (needed - (probe 0 - margin))
        (sortAsc (fun x => x.2.last_used) ws) 0
    refine ⟨k, hk, ?_, ?_, ?_⟩
    · simp only [evictForMemory]
      rw [if_neg (not_le.mpr hpos)]
      exact heq
    · simpa using hreach
    · intro j hj
      simpa using hmin j hj

/-- Witness for C1 (amended), applying the supervisor-loop half at the
concrete residents of the counterexample. -/
theorem c1_amended_eviction_order_witness :
    ∃ k, k ≤ (sortAsc (fun x => x.2.last_used) [("small", wSmall), ("big", wBig)]).length ∧
      evictForMemory 10 4 (fun _ => 6) [("small", wSmall), ("big", wBig)]
        = ((sortAsc (fun x => x.2.last_used)
            [("small", wSmall), ("big", wBig)]).take k).map Prod.fst ∧
      ((10 : ℚ) - (6 - 4)
          ≤ (((sortAsc (fun x => x.2.last_used)
              [("small", wSmall), ("big", wBig)]).take k).map
              (fun x => x.2.memory_gb)).sum
        ∨ k = (sortAsc (fun x => x.2.last_used)
            [("small", wSmall), ("big", wBig)]).length) ∧
      ∀ j < k,
        (((sortAsc (fun x => x.2.last_used)
            [("small", wSmall), ("big", wBig)]).take j).map
            (fun x => x.2.memory_gb)).sum
          < (10 : ℚ) - (6 - 4) :=
  c1_amended_eviction_order.2 10 4 (fun _ => 6) [("small", wSmall), ("big", wBig)]
    (by norm_num)

/-- A probe schedule whose first reading reports 6 GB available and whose
readings after the first stop report 100 GB available. -/
def probeAfterStop : Nat → ℚ :=
  fun i => if i = 0 then 6 else 100

/-- C3 (counterexample): with the probe schedule `probeAfterStop` (memory is
abundantly free after the first stop), a loop that re-probed after each stop
would stop only `small`, but `_evict_for_memory` stops `small` and then
`big`: its early exit is decided from the sum of static `memory_gb`
estimates, never from a fresh probe. -/
theorem c3_counterexample_no_reprobe :
    evictForMemory 10 4 probeAfterStop [("small", wSmall), ("big", wBig)] = ["small", "big"] ∧
    evictForMemoryReprobe 10 4 probeAfterStop [("small", wSmall), ("big", wBig)] = ["small"] := by
  constructor
  · norm_num [evictForMemory, evictLoop, sortAsc, insertAsc, probeAfterStop, wSmall, wBig]
  · norm_num [evictForMemoryReprobe, reprobeLoop, sortAsc, insertAsc, probeAfterStop,
      wSmall, wBig]

/-- C3 (amended): `_evict_for_memory` probes host memory exactly once, at
entry; its behaviour is unchanged under any modification of the probe
readings after the first, so no re-probing influences the loop or its early
termination. -/
theorem c3_amended_single_probe :
    ∀ (needed margin : ℚ) (p q : Nat → ℚ)
        (workers : List (String × WorkerProcess)),
      p 0 = q 0 →
      evictForMemory needed margin p workers
        = evictForMemory needed margin q workers := by
  intro needed margin p q ws h
  unfold evictForMemory
  rw [h]

/-- Witness for C3 (amended): the all-6 schedule and `probeAfterStop` agree
at reading 0, so the loop behaves identically under them. -/
theorem c3_amended_single_probe_witness :
    evictForMemory 10 4 (fun _ => 6) [("small", wSmall), ("big", wBig)]
      = evictForMemory 10 4 probeAfterStop [("small", wSmall), ("big", wBig)] :=
  c3_amended_single_probe 10 4 (fun _ => 6) probeAfterStop
    [("small", wSmall), ("big", wBig)] rfl

/-! ## Worker supervision: `stop_worker` and the idle sweep -/

/-- `WorkerManager.stop_worker` from `src/worker_manager.py`: return `false`
if the alias is absent; otherwise SIGTERM the process group, wait up to 5 s,
escalate to SIGKILL — every exception of that signalling is caught, which the
ignored oracle `killOk` models — then delete the record and return `true`. -/
def stop_worker (workers : List (String × WorkerProcess)) (a : String)
    (killOk : Bool) : Bool × List (String × WorkerProcess) :=
  match workers.lookup a with
  | none => (false, workers)
  | some _ => (true, workers.filter (fun p => p.1 != a))

/-- Deleting a key that a lookup no longer finds leaves the map unchanged. -/
theorem filter_ne_of_lookup_none (a : String) :
    ∀ m : List (String × WorkerProcess), m.lookup a = none →
      m.filter (fun p => p.1 != a) = m := by
  intro m
  induction m with
  | nil => intro _; rfl
  | cons p ps ih =>
    obtain ⟨k, w⟩ := p
    intro h
    cases hk : a == k
    · simp only [List.lookup_cons, hk] at h
      have hk2 : (k != a) = true := by
        simp only [bne_iff_ne]
        intro he
        subst he
        simp at hk
      simp [List.filter_cons, hk2, ih h]
    · simp only [List.lookup_cons, hk] at h
      exact Option.noConfusion h

/-- After a delete, the key is gone. -/
theorem lookup_filter_ne (a : String) :
    ∀ m : List (String × WorkerProcess),
      (m.filter (fun p => p.1 != a)).lookup a = none := by
  intro m
  induction m with
  | nil => rfl
  | cons p ps ih =>
    obtain ⟨k, w⟩ := p
    by_cases hk : k = a
    · simp [List.filter_cons, hk, ih]
    · have hk' : (k != a) = true := by simpa using hk
      have hak : (a == k) = false := by
        simp only [beq_eq_false_iff_ne]
        exact fun he => hk he.symm
      simp [List.filter_cons, hk', List.lookup_cons, hak, ih]

/-- `stop_worker` reports success exactly when the alias was found. -/
theorem stop_worker_fst (workers : List (String × WorkerProcess)) (a : String)
    (k : Bool) :
    (stop_worker workers a k).1 = (workers.lookup a).isSome := by
  unfold stop_worker
  cases h : workers.lookup a <;> rfl

/-- The map `stop_worker` leaves behind is always the key-delete of its
input. -/
theorem stop_worker_snd (workers : List (String × WorkerProcess)) (a : String)
    (k : Bool) :
    (stop_worker workers a k).2 = workers.filter (fun p => p.1 != a) := by
  unfold stop_worker
  cases h : workers.lookup a with
  | none => simp [filter_ne_of_lookup_none a workers h]
  | some w => rfl

/-- C9: `stop_worker` is total and idempotent: on an absent alias it returns
`false` and leaves the map unchanged; on a present alias it returns `true`
and removes the record, so an immediate second stop of the same alias
returns `false`; and the result never depends on whether signalling the
process group succeeded. -/
theorem c9_stop_idempotent (workers : List (String × WorkerProcess))
    (a : String) (k k2 : Bool) :
    (workers.lookup a = none → stop_worker workers a k = (false, workers)) ∧
    ((∃ w, workers.lookup a = some w) →
      (stop_worker workers a k).1 = true ∧
      ((stop_worker workers a k).2).lookup a = none ∧
      (stop_worker (stop_worker workers a k).2 a k2).1 = false) ∧
    stop_worker workers a k = stop_worker workers a k2 := by
  refine ⟨?_, ?_, rfl⟩
  · intro h
    unfold stop_worker
    rw [h]
  · rintro ⟨w, hw⟩
    have h2 : ((stop_worker workers a k).2).lookup a = none := by
      rw [stop_worker_snd]
      exact lookup_filter_ne a workers
    refine ⟨?_, h2, ?_⟩
    · rw [stop_worker_fst, hw]
      rfl
    · rw [stop_worker_fst, h2]
      rfl

/-- Witness for C9: stopping the resident alias `"small"` twice returns
`true` then `false`. -/
theorem c9_stop_idempotent_witness :
    (stop_worker [("small", wSmall)] "small" true).1 = true ∧
    (stop_worker (stop_worker [("small", wSmall)] "small" true).2 "small" false).1
      = false :=
  ⟨((c9_stop_idempotent [("small", wSmall)] "small" true false).2.1 ⟨wSmall, rfl⟩).1,
   ((c9_stop_idempotent [("small", wSmall)] "small" true false).2.1 ⟨wSmall, rfl⟩).2.2⟩

/-- The `to_stop` collection scan of one tick of
`WorkerManager._monitor_idle_workers`: the three sequential checks (child
exited; idle strictly beyond `idle_timeout`; request count at least
`max_requests`), over a snapshot of the items in map order. -/
def sweepCollect (now idle_timeout : ℚ) (max_requests : Nat) :
    List (String × WorkerProcess) → List String
  | [] => []
  | (a, w) :: rest =>
    if w.exited then a :: sweepCollect now idle_timeout max_requests rest
    else if idle_timeout < now - w.last_used then
      a :: sweepCollect now idle_timeout max_requests rest
    else if max_requests ≤ w.request_count then
      a :: sweepCollect now idle_timeout max_requests rest
    else sweepCollect now idle_timeout max_requests rest

/-- One tick of `_monitor_idle_workers`: collect `to_stop`, then call
`stop_worker` on each collected alias in order.  Returns the stopped aliases
and the surviving map. -/
def monitorTick (now idle_timeout : ℚ) (max_requests : Nat)
    (workers : List (String × WorkerProcess)) :
    List String × List (String × WorkerProcess) :=
  let to_stop := sweepCollect now idle_timeout max_requests workers
  (to_stop, to_stop.foldl (fun m a => (stop_worker m a true).2) workers)

/-- The scan marks exactly the entries satisfying one of the three
conditions. -/
theorem sweepCollect_eq_filter (now idle_timeout : ℚ) (max_requests : Nat) :
    ∀ workers : List (String × WorkerProcess),
      sweepCollect now idle_timeout max_requests workers
        = (workers.filter (fun p =>
            p.2.exited || decide (idle_timeout < now - p.2.last_used)
              || decide (max_requests ≤ p.2.request_count))).map Prod.fst := by
  intro m
  induction m with
  | nil => rfl
  | cons p ps ih =>
    obtain ⟨a, w⟩ := p
    cases hex : w.exited <;>
      by_cases hidle : idle_timeout < now - w.last_used <;>
      by_cases hreq : max_requests ≤ w.request_count <;>
      simp [sweepCollect, List.filter_cons, hex, hidle, hreq, ih]

/-- Folding `stop_worker` over a list of aliases deletes exactly those
keys. -/
theorem foldl_stop_eq_filter :
    ∀ (l : List String) (m : List (String × WorkerProcess)),
      l.foldl (fun m2 a => (stop_worker m2 a true).2) m
        = m.filter (fun p => !(l.contains p.1)) := by
  intro l
  induction l with
  | nil => intro m; simp
  | cons a l2 ih =>
    intro m
    rw [List.foldl_cons, ih, stop_worker_snd, List.filter_filter]
    apply List.filter_congr
    intro p _
    by_cases he : p.1 = a <;> simp [List.contains_cons, Bool.not_or, he]

/-- Distinct keys make key-equal members equal. -/
theorem eq_of_mem_of_fst_eq :
    ∀ {l : List (String × WorkerProcess)}, (l.map Prod.fst).Nodup →
      ∀ {p q : String × WorkerProcess}, p ∈ l → q ∈ l → p.1 = q.1 → p = q := by
  intro l
  induction l with
  | nil => intro _ p q hp; exact absurd hp (List.not_mem_nil p)
  | cons r rs ih =>
    intro hnd p q hp hq hfst
    rw [List.map_cons, List.nodup_cons] at hnd
    rcases List.mem_cons.mp hp with hp1 | hp1 <;>
      rcases List.mem_cons.mp hq with hq1 | hq1
    · rw [hp1, hq1]
    · subst hp1
      exfalso
      apply hnd.1
      rw [hfst]
      exact List.mem_map_of_mem Prod.fst hq1
    · subst hq1
      exfalso
      apply hnd.1
      rw [← hfst]
      exact List.mem_map_of_mem Prod.fst hp1
    · exact ih hnd.2 hp1 hq1 hfst

/-- C8: on one tick of the idle monitor, the aliases stopped are exactly
those of the workers satisfying at least one of: the child has exited,
`now − last_used` strictly exceeds the idle timeout, or the request count
has reached the restart bound; and the surviving map holds exactly the
workers failing all three (keys assumed distinct, as Python dict keys
are). -/
theorem c8_sweep_stops_exactly (now idle_timeout : ℚ) (max_requests : Nat)
    (workers : List (String × WorkerProcess))
    (hnodup : (workers.map Prod.fst).Nodup) :
    (monitorTick now idle_timeout max_requests workers).1
      = (workers.filter (fun p =>
          p.2.exited || decide (idle_timeout < now - p.2.last_used)
            || decide (max_requests ≤ p.2.request_count))).map Prod.fst ∧
    (monitorTick now idle_timeout max_requests workers).2
      = workers.filter (fun p =>
          !(p.2.exited || decide (idle_timeout < now - p.2.last_used)
            || decide (max_requests ≤ p.2.request_count))) := by
  have h1 := sweepCollect_eq_filter now idle_timeout max_requests workers
  refine ⟨h1, ?_⟩
  show (sweepCollect now idle_timeout max_requests workers).foldl
      (fun m a => (stop_worker m a true).2) workers = _
  rw [foldl_stop_eq_filter]
  apply List.filter_congr
  intro p hp
  have hcont : ((sweepCollect now idle_timeout max_requests workers).contains p.1)
      = (p.2.exited || decide (idle_timeout < now - p.2.last_used)
          || decide (max_requests ≤ p.2.request_count)) := by
    rw [h1]
    by_cases hs : (p.2.exited || decide (idle_timeout < now - p.2.last_used)
        || decide (max_requests ≤ p.2.request_count)) = true
    · rw [hs]
      have : p.1 ∈ (workers.filter (fun q =>
          q.2.exited || decide (idle_timeout < now - q.2.last_used)
            || decide (max_requests ≤ q.2.request_count))).map Prod.fst :=
        List.mem_map_of_mem Prod.fst (List.mem_filter.mpr ⟨hp, hs⟩)
      simp only [List.contains, List.elem_eq_mem, decide_eq_true_eq]
      exact this
    · have hs2 : (p.2.exited || decide (idle_timeout < now - p.2.last_used)
          || decide (max_requests ≤ p.2.request_count)) = false := by
        simpa using hs
      rw [hs2]
      simp only [List.contains, List.elem_eq_mem, decide_eq_false_iff_not]
      intro hmem
      obtain ⟨q, hq, hqeq⟩ := List.mem_map.mp hmem
      have hqf := List.mem_filter.mp hq
      have : q = p := eq_of_mem_of_fst_eq hnodup hqf.1 hp hqeq
      rw [this] at hqf
      rw [hqf.2] at hs2
      exact absurd hs2 (by simp)
  rw [hcont]

/-- Witness for C8 at a concrete tick: at time 400 with a 300 s timeout,
`small` (last used at 50) is idle-reaped and `big` (last used at 100)
survives. -/
theorem c8_sweep_stops_exactly_witness :
    (monitorTick 400 300 50 [("small", wSmall), ("big", wBig)]).1
      = ([("small", wSmall), ("big", wBig)].filter (fun p =>
          p.2.exited || decide ((300:ℚ) < 400 - p.2.last_used)
            || decide (50 ≤ p.2.request_count))).map Prod.fst ∧
    (monitorTick 400 300 50 [("small", wSmall), ("big", wBig)]).2
      = [("small", wSmall), ("big", wBig)].filter (fun p =>
          !(p.2.exited || decide ((300:ℚ) < 400 - p.2.last_used)
            || decide (50 ≤ p.2.request_count))) :=
  c8_sweep_stops_exactly 400 300 50 [("small", wSmall), ("big", wBig)] (by decide)

/-! ## Gateway dispatch (`src/gateway/main.py`) -/

/-- One entry of `config.models` (`ModelConfig` in `src/core/config.py`),
restricted to the fields the dispatch layer reads. -/
structure ModelConfig where
  type : String
  path : String
deriving DecidableEq

/-- The ASCII single-quote character as a one-character string. -/
def sq : String :=
  String.singleton (Char.ofNat 39)

/-- The Python `repr` of a list of strings, as the source interpolates
`list(config.models.keys())` into the 404 detail. -/
def pyReprStrList (l : List String) : String :=
  "[" ++ String.intercalate ", " (l.map (fun x => sq ++ x ++ sq)) ++ "]"

/-- The alias-resolution step of `chat_completions`: the request model when
it is configured; else `vlm-fast` when the lowercased name contains `"gpt"`
or `"claude"`; else the 404 detail string naming the model. -/
def resolveChatModel (models : List (String × ModelConfig)) (model : String) :
    Except String String :=
  if (models.lookup model).isSome then .ok model
  else if strHas (strLower model) "gpt" || strHas (strLower model) "claude" then
    .ok "vlm-fast"
  else
    .error ("Model " ++ sq ++ model ++ sq ++ " not found. Available: "
      ++ pyReprStrList (models.map Prod.fst))

/-- `chat_completions` up to its first supervisor call: `.inl (404, detail)`
is an HTTPException raised before `supervisor.get_worker` is reached;
`.inr a` is the alias passed to `supervisor.get_worker`. -/
def chatDispatch (models : List (String × ModelConfig)) (model : String) :
    (Nat × String) ⊕ String :=
  match resolveChatModel models model with
  | .ok a => .inr a
  | .error d => .inl (404, d)

/-- `chPre` holds of a list followed by anything. -/
theorem chPre_append_self : ∀ (n t : List Char), chPre n (n ++ t) = true := by
  intro n
  induction n with
  | nil => intro t; rfl
  | cons c cs ih => intro t; simp [chPre, ih]

/-- The empty needle occurs everywhere. -/
theorem chSub_nil : ∀ h : List Char, chSub [] h = true := by
  intro h
  cases h with
  | nil => rfl
  | cons b bs => simp [chSub, chPre]

/-- A needle occurs in any haystack surrounding it. -/
theorem chSub_middle : ∀ (p n t : List Char), chSub n (p ++ n ++ t) = true := by
  intro p
  induction p with
  | nil =>
    intro n t
    cases n with
    | nil => simpa using chSub_nil t
    | cons c cs =>
      have h := chPre_append_self (c :: cs) t
      simp only [List.cons_append] at h
      simp [chSub, h]
  | cons b bs ih =>
    intro n t
    simp only [List.cons_append]
    cases hn : n ++ t with
    | nil =>
      have : n = [] := by
        cases n
        · rfl
        · simp at hn
      subst this
      simpa using chSub_nil (b :: bs)
    | cons c cs =>
      simp [chSub, ← List.append_assoc, ih n t]

/-- `strHas` finds a string inside any concatenation around it. -/
theorem strHas_middle (a m b : String) : strHas (a ++ m ++ b) m = true := by
  simp only [strHas, String.data_append]
  exact chSub_middle a.data m.data b.data

/-- C6: for every chat request: a configured model is dispatched unchanged;
an unconfigured model whose lowercased name contains `"gpt"` or `"claude"`
is dispatched as `vlm-fast`; any other model yields a 404 — before any
Manager contact — whose detail names the unknown model. -/
theorem c6_chat_model_resolution (models : List (String × ModelConfig))
    (model : String) :
    ((models.lookup model).isSome = true →
      chatDispatch models model = .inr model) ∧
    ((models.lookup model).isSome = false →
      (strHas (strLower model) "gpt" || strHas (strLower model) "claude") = true →
      chatDispatch models model = .inr "vlm-fast") ∧
    ((models.lookup model).isSome = false →
      (strHas (strLower model) "gpt" || strHas (strLower model) "claude") = false →
      ∃ d, chatDispatch models model = .inl (404, d) ∧ strHas d model = true) := by
  refine ⟨?_, ?_, ?_⟩
  · intro h
    simp [chatDispatch, resolveChatModel, h]
  · intro h hg
    simp [chatDispatch, resolveChatModel, h, hg]
  · intro h hg
    refine ⟨"Model " ++ sq ++ model ++ sq ++ " not found. Available: "
        ++ pyReprStrList (models.map Prod.fst), ?_, ?_⟩
    · simp [chatDispatch, resolveChatModel, h, hg]
    · have h2 := strHas_middle ("Model " ++ sq) model
        (sq ++ " not found. Available: " ++ pyReprStrList (models.map Prod.fst))
      simpa [String.append_assoc] using h2

/-- Witness for C6: with only `vlm-fast` configured, the model `"gpt-4"` is
rewritten to `vlm-fast`. -/
theorem c6_chat_model_resolution_witness :
    chatDispatch [("vlm-fast", ⟨"vlm", "some-path"⟩)] "gpt-4" = .inr "vlm-fast" :=
  (c6_chat_model_resolution [("vlm-fast", ⟨"vlm", "some-path"⟩)] "gpt-4").2.1
    rfl (by decide)

/-- The alias-resolution of `analyze_image` in `src/gateway/main.py`:
`vlm-best` for tasks `analyze`/`describe`, else `vlm-fast`; when that alias
is not configured, fall back to `vlm-fast` if configured, else to the first
configured model key (`list(config.models.keys())[0]`; the `headD ""`
default stands for the IndexError an empty catalog would raise, so claims
about the fallback assume a nonempty catalog). -/
def resolveAnalyzeAlias (models : List (String × ModelConfig)) (task : String) :
    String :=
  let model_alias :=
    if task = "analyze" ∨ task = "describe" then "vlm-best" else "vlm-fast"
  if (models.lookup model_alias).isSome then model_alias
  else if (models.lookup "vlm-fast").isSome then "vlm-fast"
  else (models.map Prod.fst).headD ""

/-- The fallback exactly as claim C7 words it: the first configured model
whose type is `"vlm"`. -/
def firstConfiguredVlm (models : List (String × ModelConfig)) : Option String :=
  (models.find? (fun p => p.2.type == "vlm")).map Prod.fst

/-- A catalog with two VLM entries, `my-vlm` first. -/
def cfgTwoVlms : List (String × ModelConfig) :=
  [("my-vlm", ⟨"vlm", "path-a"⟩), ("vlm-fast", ⟨"vlm", "path-b"⟩)]

/-- A catalog whose only entry is a diffusion model. -/
def cfgDiffOnly : List (String × ModelConfig) :=
  [("image-gen", ⟨"diffusion", "path-c"⟩)]

/-- C7 (counterexample): when `vlm-best` is missing the gateway falls back
to `vlm-fast`, not to the first configured VLM (`my-vlm`); and with only a
diffusion model configured it falls back to that non-VLM model even though
no configured VLM exists. -/
theorem c7_counterexample_fallback :
    resolveAnalyzeAlias cfgTwoVlms "analyze" = "vlm-fast" ∧
    firstConfiguredVlm cfgTwoVlms = some "my-vlm" ∧
    "vlm-fast" ≠ "my-vlm" ∧
    resolveAnalyzeAlias cfgDiffOnly "caption" = "image-gen" ∧
    firstConfiguredVlm cfgDiffOnly = none :=
  ⟨rfl, rfl, by decide, rfl, rfl⟩

/-- C7 (amended): the resolved alias is `vlm-best` exactly when the task is
`analyze` or `describe` and `vlm-fast` otherwise; when that alias is not
configured the gateway falls back to `vlm-fast` if configured, else to the
first configured model key regardless of its type. -/
theorem c7_amended_analyze_fallback (models : List (String × ModelConfig))
    (task : String) :
    ((models.lookup
        (if task = "analyze" ∨ task = "describe" then "vlm-best" else "vlm-fast")).isSome
          = true →
      resolveAnalyzeAlias models task
        = (if task = "analyze" ∨ task = "describe" then "vlm-best" else "vlm-fast")) ∧
    ((models.lookup
        (if task = "analyze" ∨ task = "describe" then "vlm-best" else "vlm-fast")).isSome
          = false →
      (models.lookup "vlm-fast").isSome = true →
      resolveAnalyzeAlias models task = "vlm-fast") ∧
    ((models.lookup
        (if task = "analyze" ∨ task = "describe" then "vlm-best" else "vlm-fast")).isSome
          = false →
      (models.lookup "vlm-fast").isSome = false →
      resolveAnalyzeAlias models task = (models.map Prod.fst).headD "") := by
  refine ⟨?_, ?_, ?_⟩
  · intro h
    simp only [resolveAnalyzeAlias, h, if_true]
  · intro h hf
    simp only [resolveAnalyzeAlias, h, hf]
    simp
  · intro h hf
    simp only [resolveAnalyzeAlias, h, hf]
    simp

/-- Witness for C7 (amended): for task `caption` with both VLMs configured,
the primary alias `vlm-fast` is itself configured and is returned. -/
theorem c7_amended_analyze_fallback_witness :
    resolveAnalyzeAlias cfgTwoVlms "caption"
      = (if "caption" = "analyze" ∨ "caption" = "describe"
          then "vlm-best" else "vlm-fast") :=
  (c7_amended_analyze_fallback cfgTwoVlms "caption").1 rfl

/-! ## `spawn_worker` and the `/spawn/{alias}` endpoint

`WorkerManager.spawn_worker` and the FastAPI route `spawn` from
`src/worker_manager.py`.  Impure inputs are oracles: `probe i` is the
`memory.available` reading of the `i`-th `get_memory_status()` call
(0: the first `can_load_model`, 1: inside `_evict_for_memory`, 2: the
re-check), `healthExisting` is the health probe of an already-running
worker, `healthAt i` is the result of the `i`-th readiness poll of the new
child, and `now` is `time.time()`. -/

/-- The exception classes `spawn_worker` raises, which the route maps to
HTTP codes: `ValueError` (unknown model) → 404, `MemoryError` → 503,
`RuntimeError` (startup timeout) → 500. -/
inductive SpawnErr
  | unknownModel (detail : String)
  | insufficientMemory (detail : String)
  | startupTimeout (detail : String)
deriving DecidableEq

/-- Python's `f"{x:.1f}"` for the nonnegative exact-tenths values the
manager formats. -/
def fmt1 (q : ℚ) : String :=
  let n := ⌊q * 10⌋.toNat
  toString (n / 10) ++ "." ++ toString (n % 10)

/-- `WorkerManager.port_map`: fixed ports of the canonical aliases. -/
def port_map : List (String × Nat) :=
  [("vlm-fast", 8001), ("vlm-best", 8002), ("image-gen", 8003)]

/-- `WorkerManager._get_port`: the fixed port when the alias is canonical,
else draw from the monotonic pool.  Returns the port and the new pool
counter. -/
def get_port (next_port : Nat) (a : String) : Nat × Nat :=
  match port_map.lookup a with
  | some p => (p, next_port)
  | none => (next_port, next_port + 1)

/-- Python dict assignment `d[a] = w`: replace in place (keeping insertion
order) or append a new key at the end. -/
def wmSet (m : List (String × WorkerProcess)) (a : String) (w : WorkerProcess) :
    List (String × WorkerProcess) :=
  if (m.lookup a).isSome then m.map (fun p => if p.1 == a then (a, w) else p)
  else m ++ [(a, w)]

/-- The number of readiness-poll iterations the 60-second wait loop runs:
up to and including the first successful poll, or all 60 on timeout. -/
def pollCount (healthAt : Nat → Bool) : Nat :=
  match (List.range 60).findIdx? healthAt with
  | some i => i + 1
  | none => 60

/-- The workers-map snapshots another task (for instance the idle sweep)
can observe at the suspension points of the readiness-poll loop, each paired
with whether the child has passed a health check by that point.  The record
is inserted (source line `self.workers[alias] = worker`) before the first
poll, so every snapshot is the post-insertion map. -/
def spawnPollObservations (m : List (String × WorkerProcess))
    (healthAt : Nat → Bool) : List (List (String × WorkerProcess) × Bool) :=
  (List.range (pollCount healthAt)).map (fun i => (m, (List.range i).any healthAt))

/-- The outcome of `spawn_worker`: the returned record or raised exception,
the final workers map and port pool, and the mid-poll observations. -/
structure SpawnResult where
  result : Except SpawnErr WorkerProcess
  workers : List (String × WorkerProcess)
  next_port : Nat
  observations : List (List (String × WorkerProcess) × Bool)

/-- The launch tail of `spawn_worker` (port allocation, record insertion,
readiness poll, forced stop on timeout). -/
def spawnLaunch (a : String) (cfg : ModelConfig) (memory_gb : ℚ)
    (workers1 : List (String × WorkerProcess)) (next_port : Nat)
    (healthAt : Nat → Bool) (now : ℚ) : SpawnResult :=
  let pr := get_port next_port a
  let w : WorkerProcess := ⟨a, pr.1, cfg.path, cfg.type, memory_gb, now, now, 0, false⟩
  let workers2 := wmSet workers1 a w
  if (List.range 60).any healthAt then
    ⟨.ok w, workers2, pr.2, spawnPollObservations workers2 healthAt⟩
  else
    ⟨.error (.startupTimeout ("Worker " ++ a ++ " failed to start")),
      (stop_worker workers2 a true).2, pr.2, spawnPollObservations workers2 healthAt⟩

/-- The fresh-spawn path of `spawn_worker`: config check, admission check,
eviction, admission re-check, then launch. -/
def spawnFresh (models : List (String × ModelConfig)) (margin : ℚ)
    (workers : List (String × WorkerProcess)) (next_port : Nat) (a : String)
    (probe : Nat → ℚ) (healthAt : Nat → Bool) (now : ℚ) : SpawnResult :=
  match models.lookup a with
  | none => ⟨.error (.unknownModel ("Unknown model: " ++ a)), workers, next_port, []⟩
  | some cfg =>
    let memory_gb := get_model_memory_requirement cfg.path cfg.type
    if decide (memory_gb ≤ probe 0 - margin) then
      spawnLaunch a cfg memory_gb workers next_port healthAt now
    else
      let evicted := evictForMemory memory_gb margin (fun i => probe (1 + i)) workers
      let workers1 := evicted.foldl (fun m x => (stop_worker m x true).2) workers
      if decide (memory_gb ≤ probe 2 - margin) then
        spawnLaunch a cfg memory_gb workers1 next_port healthAt now
      else
        ⟨.error (.insufficientMemory ("Insufficient memory for " ++ a ++ ": need "
            ++ fmt1 memory_gb ++ "GB, have " ++ fmt1 (probe 2) ++ "GB")),
          workers1, next_port, []⟩

/-- `WorkerManager.spawn_worker`: return a live healthy existing worker
after touching its `last_used`; discard a dead or unhealthy record; then run
the fresh-spawn path. -/
def spawn_worker (models : List (String × ModelConfig)) (margin : ℚ)
    (workers : List (String × WorkerProcess)) (next_port : Nat) (a : String)
    (healthExisting : Bool) (probe : Nat → ℚ) (healthAt : Nat → Bool) (now : ℚ) :
    SpawnResult :=
  match workers.lookup a with
  | some w =>
    if !w.exited && healthExisting then
      ⟨.ok {w with last_used := now}, wmSet workers a {w with last_used := now},
        next_port, []⟩
    else
      spawnFresh models margin (workers.filter (fun p => p.1 != a)) next_port a
        probe healthAt now
  | none => spawnFresh models margin workers next_port a probe healthAt now

/-- The body of the 200 response of `/spawn/{alias}` (`SpawnResponse` in
`src/worker_manager.py`). -/
structure SpawnResponse where
  «alias» : String
  port : Nat
  memory_gb : ℚ
  status : String
deriving DecidableEq

/-- An HTTP reply of the manager: a 200 with a `SpawnResponse` body, or an
HTTPException with a status code and detail. -/
inductive HttpReply
  | ok (body : SpawnResponse)
  | err (code : Nat) (detail : String)
deriving DecidableEq

/-- The `/spawn/{alias}` route: build the success body from the returned
record, and map ValueError → 404, MemoryError → 503, RuntimeError → 500,
each with the exception text as detail. -/
def spawnEndpoint (models : List (String × ModelConfig)) (margin : ℚ)
    (workers : List (String × WorkerProcess)) (next_port : Nat) (a : String)
    (healthExisting : Bool) (probe : Nat → ℚ) (healthAt : Nat → Bool) (now : ℚ) :
    HttpReply :=
  match (spawn_worker models margin workers next_port a healthExisting probe
      healthAt now).result with
  | .ok w => .ok ⟨a, w.port, w.memory_gb, "running"⟩
  | .error (.unknownModel d) => .err 404 d
  | .error (.insufficientMemory d) => .err 503 d
  | .error (.startupTimeout d) => .err 500 d

/-- Appending a fresh key makes it found. -/
theorem lookup_append_self (a : String) (w : WorkerProcess) :
    ∀ m : List (String × WorkerProcess), m.lookup a = none →
      (m ++ [(a, w)]).lookup a = some w := by
  intro m
  induction m with
  | nil =>
    intro _
    simp [List.lookup_cons]
  | cons p ps ih =>
    obtain ⟨k, v⟩ := p
    intro h
    cases hk : a == k
    · simp only [List.cons_append, List.lookup_cons, hk] at h ⊢
      exact ih h
    · simp only [List.lookup_cons, hk] at h
      exact Option.noConfusion h

/-- A found entry is a member of the association list. -/
theorem mem_of_lookup_some (a : String) (w : WorkerProcess) :
    ∀ m : List (String × WorkerProcess), m.lookup a = some w → (a, w) ∈ m := by
  intro m
  induction m with
  | nil => intro h; exact Option.noConfusion h
  | cons p ps ih =>
    obtain ⟨k, v⟩ := p
    intro h
    cases hk : a == k
    · simp only [List.lookup_cons, hk] at h
      exact List.mem_cons_of_mem _ (ih h)
    · simp only [List.lookup_cons, hk] at h
      have hak : a = k := eq_of_beq hk
      injection h with hvw
      rw [hak, ← hvw]
      exact List.mem_cons_self _ _

/-- The readiness poll runs at least one iteration. -/
theorem pollCount_pos (healthAt : Nat → Bool) : 0 < pollCount healthAt := by
  unfold pollCount
  cases h : (List.range 60).findIdx? healthAt <;> simp

/-- The result and final map of the launch tail, by poll outcome. -/
theorem spawnLaunch_cases (a : String) (cfg : ModelConfig) (mem : ℚ)
    (workers1 : List (String × WorkerProcess)) (np : Nat)
    (healthAt : Nat → Bool) (now : ℚ) :
    ((List.range 60).any healthAt = true →
      (spawnLaunch a cfg mem workers1 np healthAt now).result
        = .ok ⟨a, (get_port np a).1, cfg.path, cfg.type, mem, now, now, 0, false⟩) ∧
    ((List.range 60).any healthAt = false →
      (spawnLaunch a cfg mem workers1 np healthAt now).result
        = .error (.startupTimeout ("Worker " ++ a ++ " failed to start")) ∧
      ((spawnLaunch a cfg mem workers1 np healthAt now).workers.lookup a)
        = none) := by
  refine ⟨?_, ?_⟩
  · intro h
    simp [spawnLaunch, h]
  · intro h
    refine ⟨by simp [spawnLaunch, h], ?_⟩
    simp only [spawnLaunch, h, Bool.false_eq_true, if_false]
    rw [stop_worker_snd]
    exact lookup_filter_ne _ _

/-- C2 (amended): on the fresh-spawn path the WorkerRecord is inserted into
the workers map BEFORE the readiness poll, not after its first success: at
every suspension point of the poll the map already contains the record, and
at the first one the child has passed no health check yet; on poll timeout
the record is removed again by the forced stop.  The idle sweep can
therefore observe a record whose child has not yet passed its first health
check — it is protected only by the sweep testing process liveness. -/
theorem c2_amended_record_inserted_before_ready
    (models : List (String × ModelConfig)) (margin : ℚ)
    (workers : List (String × WorkerProcess)) (next_port : Nat) (a : String)
    (cfg : ModelConfig) (probe : Nat → ℚ) (healthAt : Nat → Bool) (now : ℚ)
    (hfresh : workers.lookup a = none)
    (hcfg : models.lookup a = some cfg)
    (hfits : get_model_memory_requirement cfg.path cfg.type ≤ probe 0 - margin) :
    (∀ o ∈ (spawn_worker models margin workers next_port a false probe healthAt
        now).observations, (o.1.lookup a).isSome = true) ∧
    ((spawn_worker models margin workers next_port a false probe healthAt
        now).observations.head?
      = some (workers ++
          [(a, ⟨a, (get_port next_port a).1, cfg.path, cfg.type,
            get_model_memory_requirement cfg.path cfg.type, now, now, 0, false⟩)],
          false)) ∧
    ((List.range 60).any healthAt = false →
      (spawn_worker models margin workers next_port a false probe healthAt
          now).workers.lookup a = none) := by
  set w0 : WorkerProcess :=
    ⟨a, (get_port next_port a).1, cfg.path, cfg.type,
      get_model_memory_requirement cfg.path cfg.type, now, now, 0, false⟩ with hw0
  have hrun : spawn_worker models margin workers next_port a false probe healthAt now
      = spawnLaunch a cfg (get_model_memory_requirement cfg.path cfg.type)
          workers next_port healthAt now := by
    simp [spawn_worker, hfresh, spawnFresh, hcfg, decide_eq_true hfits]
  have hm2 : wmSet workers a w0 = workers ++ [(a, w0)] := by
    simp [wmSet, hfresh]
  have hlk : ((workers ++ [(a, w0)]).lookup a).isSome = true := by
    rw [lookup_append_self a w0 workers hfresh]
    rfl
  have hobs : (spawn_worker models margin workers next_port a false probe healthAt
      now).observations = spawnPollObservations (workers ++ [(a, w0)]) healthAt := by
    rw [hrun]
    rw [← hm2]
    unfold spawnLaunch
    cases h60 : (List.range 60).any healthAt <;> simp [h60, hw0]
  refine ⟨?_, ?_, ?_⟩
  · intro o ho
    rw [hobs] at ho
    unfold spawnPollObservations at ho
    obtain ⟨i, _, hi⟩ := List.mem_map.mp ho
    rw [← hi]
    exact hlk
  · rw [hobs]
    unfold spawnPollObservations
    obtain ⟨k, hk⟩ := Nat.exists_eq_succ_of_ne_zero (Nat.pos_iff_ne_zero.mp
      (pollCount_pos healthAt))
    rw [hk, List.range_succ_eq_map, List.map_cons]
    rfl
  · intro h60
    rw [hrun]
    exact ((spawnLaunch_cases a cfg _ workers next_port healthAt now).2 h60).2

/-- The catalog of the concrete spawn scenarios: one VLM alias whose path
matches no table entry and no size substring. -/
def cfgC2 : List (String × ModelConfig) :=
  [("vlm-fast", ⟨"vlm", "mymodel"⟩)]

/-- A child that answers its readiness poll on the third attempt. -/
def healthThird : Nat → Bool :=
  fun i => decide (i = 2)

/-- The record the concrete spawn inserts. -/
def wC2 : WorkerProcess :=
  ⟨"vlm-fast", 8001, "mymodel", "vlm", 3.0, 0, 0, 0, false⟩

/-- The concrete fresh spawn: plenty of memory, health passes on poll 2. -/
def spawnC2 : SpawnResult :=
  spawn_worker cfgC2 4 [] 8010 "vlm-fast" false (fun _ => 20) healthThird 0

/-- C2 (counterexample): in the concrete spawn the very first mid-poll
snapshot of the workers map already holds the record, although the child
passes no health check before poll 2: records enter the map before the
first health success, not after. -/
theorem c2_counterexample_record_before_first_health :
    spawnC2.observations.head? = some ([("vlm-fast", wC2)], false) ∧
    ([("vlm-fast", wC2)].lookup "vlm-fast").isSome = true ∧
    healthThird 0 = false ∧ healthThird 1 = false ∧
    spawnC2.result = .ok wC2 := by
  have hreq : get_model_memory_requirement "mymodel" "vlm" = 3.0 := rfl
  have h := c2_amended_record_inserted_before_ready cfgC2 4 [] 8010 "vlm-fast"
    ⟨"vlm", "mymodel"⟩ (fun _ => 20) healthThird 0 rfl rfl
    (by rw [hreq]; norm_num)
  refine ⟨?_, rfl, rfl, rfl, ?_⟩
  · have h2 := h.2.1
    simpa [hreq, get_port, port_map, wC2] using h2
  · have hrun : spawnC2
        = spawnLaunch "vlm-fast" ⟨"vlm", "mymodel"⟩ 3.0 [] 8010 healthThird 0 := by
      norm_num [spawnC2, spawn_worker, spawnFresh, cfgC2, List.lookup_cons,
        List.lookup_nil, hreq]
    rw [hrun]
    have hok := (spawnLaunch_cases "vlm-fast" ⟨"vlm", "mymodel"⟩ 3.0 [] 8010
      healthThird 0).1 (by decide)
    rw [hok]
    rfl

/-- Witness for C2 (amended) at the concrete spawn scenario. -/
theorem c2_amended_record_inserted_before_ready_witness :
    (∀ o ∈ (spawn_worker cfgC2 4 [] 8010 "vlm-fast" false (fun _ => 20)
        healthThird 0).observations, (o.1.lookup "vlm-fast").isSome = true) ∧
    ((spawn_worker cfgC2 4 [] 8010 "vlm-fast" false (fun _ => 20)
        healthThird 0).observations.head?
      = some ([] ++
          [("vlm-fast", ⟨"vlm-fast", (get_port 8010 "vlm-fast").1, "mymodel", "vlm",
            get_model_memory_requirement "mymodel" "vlm", 0, 0, 0, false⟩)],
          false)) ∧
    ((List.range 60).any healthThird = false →
      (spawn_worker cfgC2 4 [] 8010 "vlm-fast" false (fun _ => 20)
          healthThird 0).workers.lookup "vlm-fast" = none) :=
  c2_amended_record_inserted_before_ready cfgC2 4 [] 8010 "vlm-fast"
    ⟨"vlm", "mymodel"⟩ (fun _ => 20) healthThird 0 rfl rfl
    (by rw [show get_model_memory_requirement "mymodel" "vlm" = 3.0 from rfl]
        norm_num)

/-- C4: the `/spawn/{alias}` route's responses, under the invariant that
every resident record's key is a configured alias (spawn only ever inserts
configured aliases).  An unconfigured alias yields a 404 whose detail names
it; when admission fails before and after eviction the reply is a 503 whose
detail carries the needed and available GB; when admission passes but no
readiness poll succeeds the child is force-stopped (the record is gone from
the final map) and the reply is a 500; when a poll succeeds the reply is a
200 whose body is `{alias, port, memory_gb, status: "running"}`; a live
healthy resident is returned as a 200 without respawning. -/
theorem c4_spawn_endpoint_codes (models : List (String × ModelConfig))
    (margin : ℚ) (workers : List (String × WorkerProcess)) (next_port : Nat)
    (a : String) (healthExisting : Bool) (probe : Nat → ℚ)
    (healthAt : Nat → Bool) (now : ℚ)
    (hinv : ∀ p ∈ workers, (models.lookup p.1).isSome = true) :
    (models.lookup a = none →
      spawnEndpoint models margin workers next_port a healthExisting probe
          healthAt now = .err 404 ("Unknown model: " ++ a) ∧
      strHas ("Unknown model: " ++ a) a = true) ∧
    (∀ cfg, models.lookup a = some cfg →
      (∀ w, workers.lookup a = some w → (!w.exited && healthExisting) = false) →
      (¬ (get_model_memory_requirement cfg.path cfg.type ≤ probe 0 - margin) →
        ¬ (get_model_memory_requirement cfg.path cfg.type ≤ probe 2 - margin) →
        spawnEndpoint models margin workers next_port a healthExisting probe
            healthAt now
          = .err 503 ("Insufficient memory for " ++ a ++ ": need "
              ++ fmt1 (get_model_memory_requirement cfg.path cfg.type)
              ++ "GB, have " ++ fmt1 (probe 2) ++ "GB")) ∧
      ((get_model_memory_requirement cfg.path cfg.type ≤ probe 0 - margin ∨
          get_model_memory_requirement cfg.path cfg.type ≤ probe 2 - margin) →
        ((List.range 60).any healthAt = false →
          spawnEndpoint models margin workers next_port a healthExisting probe
              healthAt now = .err 500 ("Worker " ++ a ++ " failed to start") ∧
          (spawn_worker models margin workers next_port a healthExisting probe
              healthAt now).workers.lookup a = none) ∧
        ((List.range 60).any healthAt = true →
          spawnEndpoint models margin workers next_port a healthExisting probe
              healthAt now
            = .ok ⟨a, (get_port next_port a).1,
                get_model_memory_requirement cfg.path cfg.type, "running"⟩))) ∧
    (∀ w, workers.lookup a = some w → (!w.exited && healthExisting) = true →
      spawnEndpoint models margin workers next_port a healthExisting probe
          healthAt now = .ok ⟨a, w.port, w.memory_gb, "running"⟩) := by
  refine ⟨?_, ?_, ?_⟩
  · intro hnone
    have hwnone : workers.lookup a = none := by
      cases hw : workers.lookup a with
      | none => rfl
      | some w =>
        have hmem := mem_of_lookup_some a w workers hw
        have h2 := hinv (a, w) hmem
        rw [hnone] at h2
        exact absurd h2 (by simp)
    constructor
    · simp [spawnEndpoint, spawn_worker, hwnone, spawnFresh, hnone]
    · simpa using strHas_middle "Unknown model: " a ""
  · intro cfg hcfg hstale
    constructor
    · intro hnl0 hnl2
      cases hw : workers.lookup a with
      | none =>
        simp [spawnEndpoint, spawn_worker, hw, spawnFresh, hcfg,
          decide_eq_false hnl0, decide_eq_false hnl2]
      | some w =>
        have hc := hstale w hw
        simp [spawnEndpoint, spawn_worker, hw, hc, spawnFresh, hcfg,
          decide_eq_false hnl0, decide_eq_false hnl2]
    · intro hadmit
      have hred : ∃ base, spawn_worker models margin workers next_port a
          healthExisting probe healthAt now
          = spawnLaunch a cfg (get_model_memory_requirement cfg.path cfg.type)
              base next_port healthAt now := by
        by_cases h0 : get_model_memory_requirement cfg.path cfg.type ≤ probe 0 - margin
        · cases hw : workers.lookup a with
          | none =>
            exact ⟨workers, by
              simp [spawn_worker, hw, spawnFresh, hcfg, decide_eq_true h0]⟩
          | some w =>
            exact ⟨workers.filter (fun p => p.1 != a), by
              simp [spawn_worker, hw, hstale w hw, spawnFresh, hcfg,
                decide_eq_true h0]⟩
        · have h2 : get_model_memory_requirement cfg.path cfg.type
              ≤ probe 2 - margin := hadmit.resolve_left h0
          cases hw : workers.lookup a with
          | none =>
            exact ⟨(evictForMemory (get_model_memory_requirement cfg.path cfg.type)
                margin (fun i => probe (1 + i)) workers).foldl
                (fun m x => (stop_worker m x true).2) workers, by
              simp [spawn_worker, hw, spawnFresh, hcfg, decide_eq_false h0,
                decide_eq_true h2]⟩
          | some w =>
            exact ⟨(evictForMemory (get_model_memory_requirement cfg.path cfg.type)
                margin (fun i => probe (1 + i))
                (workers.filter (fun p => p.1 != a))).foldl
                (fun m x => (stop_worker m x true).2)
                (workers.filter (fun p => p.1 != a)), by
              simp [spawn_worker, hw, hstale w hw, spawnFresh, hcfg,
                decide_eq_false h0, decide_eq_true h2]⟩
      obtain ⟨base, hred⟩ := hred
      constructor
      · intro h60
        have hca := (spawnLaunch_cases a cfg
          (get_model_memory_requirement cfg.path cfg.type) base next_port
          healthAt now).2 h60
        constructor
        · simp [spawnEndpoint, hred, hca.1]
        · rw [hred]
          exact hca.2
      · intro h60
        have hca := (spawnLaunch_cases a cfg
          (get_model_memory_requirement cfg.path cfg.type) base next_port
          healthAt now).1 h60
        simp [spawnEndpoint, hred, hca]
  · intro w hw hlive
    simp [spawnEndpoint, spawn_worker, hw, hlive]

/-- Witness for C4: the 503 case at a concrete scenario (3.0 GB needed,
5 GB available against a 4 GB margin, before and after eviction). -/
theorem c4_spawn_endpoint_codes_witness :
    spawnEndpoint cfgC2 4 [] 8010 "vlm-fast" false (fun _ => 5)
        (fun _ => false) 0
      = .err 503 ("Insufficient memory for " ++ "vlm-fast" ++ ": need "
          ++ fmt1 (get_model_memory_requirement
              (ModelConfig.mk "vlm" "mymodel").path
              (ModelConfig.mk "vlm" "mymodel").type)
          ++ "GB, have " ++ fmt1 5 ++ "GB") :=
  (((c4_spawn_endpoint_codes cfgC2 4 [] 8010 "vlm-fast" false (fun _ => 5)
      (fun _ => false) 0 (fun p hp => absurd hp (List.not_mem_nil p))).2.1
    ⟨"vlm", "mymodel"⟩ rfl (fun w hw => Option.noConfusion hw)).1
    (by rw [show get_model_memory_requirement
          (ModelConfig.mk "vlm" "mymodel").path
          (ModelConfig.mk "vlm" "mymodel").type = 3.0 from rfl]
        norm_num)
    (by rw [show get_model_memory_requirement
          (ModelConfig.mk "vlm" "mymodel").path
          (ModelConfig.mk "vlm" "mymodel").type = 3.0 from rfl]
        norm_num))

end VisionInsight
